import Mathlib

/-!
Verification of the CSV URL unshortener (src/url_unshortener.py).

Shallow embedding: the network layer (`requests.head` following redirects)
is abstracted as a `Resolver` that either yields the final effective URL
(`Except.ok finalUrl`) or fails with a `requests.RequestException` whose
string description is `e` (`Except.error e`).  The CSV reader/writer
boundary is modelled at the level of parsed rows: a CSV document is a
`List (List String)` of rows of string cells, in document order.
Python exceptions that escape `process_csv` are modelled by `PyError`.
-/

/-- A network resolver: given the input URL, either the final effective URL
after following all redirects (success), or the description of the
`requests.RequestException` raised (failure). -/
abbrev Resolver := String → Except String String

/-- The fixed denylist of shortener hosts (src/url_unshortener.py line 43):
`shortener_domains = ['bit.ly', 'tinyurl.com', 'goo.gl', 't.co', 'shorturl.at', 'lnkd.in']`. -/
def shortener_domains : List String :=
  ["bit.ly", "tinyurl.com", "goo.gl", "t.co", "shorturl.at", "lnkd.in"]

/-- Characters allowed in a URL scheme, after the first one
(CPython `urllib.parse.scheme_chars`): letters, digits, `+`, `-`, `.`. -/
def isSchemeChar (c : Char) : Bool :=
  c.isAlphanum || c == '+' || c == '-' || c == '.'

/-- WHATWG C0 control characters or space, left-stripped from a URL by
CPython `urllib.parse.urlsplit` before parsing. -/
def isC0ControlOrSpace (c : Char) : Bool :=
  c.toNat ≤ 0x20

/-- CPython `urlsplit` preprocessing: left-strip C0 controls and spaces,
then remove every tab, carriage return and line feed. -/
def cleanUrl (cs : List Char) : List Char :=
  (cs.dropWhile isC0ControlOrSpace).filter
    (fun c => !(c == '\t' || c == '\r' || c == '\n'))

/-- CPython `urlsplit` scheme handling: if the URL has a `:` at position
`i > 0`, its first character is an ASCII letter and every character before
the `:` is a scheme character, drop the scheme and the `:`. -/
def removeScheme (cs : List Char) : List Char :=
  match cs.findIdx? (· == ':') with
  | none => cs
  | some i =>
    if (decide (0 < i)
        && (match cs with
            | c :: _ => c.isAlpha
            | [] => false)
        && (cs.take i).all isSchemeChar) = true then
      cs.drop (i + 1)
    else cs

/-- The `netloc` component computed by Python's `urlparse` (CPython
`urllib.parse.urlsplit`): after preprocessing and scheme removal, if the
remainder starts with `//`, the characters up to the first `/`, `?` or `#`;
otherwise the empty string. -/
def urlparse_netloc (url : String) : String :=
  match removeScheme (cleanUrl url.toList) with
  | '/' :: '/' :: rest =>
    String.mk (rest.takeWhile (fun c => !(c == '/' || c == '?' || c == '#')))
  | _ => ""

/-- Embedding of `unshorten_url` (src/url_unshortener.py lines 28-49):
issue the request (the `Resolver`); on success, if the `netloc` of the
final URL is in `shortener_domains`, return the loop-error string,
otherwise the final URL; on `requests.RequestException e`, return
`"Error: " + str(e)`. -/
def unshorten_url (resolver : Resolver) (url : String) : String :=
  match resolver url with
  | Except.ok final_url =>
    if urlparse_netloc final_url ∈ shortener_domains then
      "Error: Still on shortener domain"
    else
      final_url
  | Except.error e => "Error: " ++ e

/-- Python exceptions that can escape `process_csv`:
`StopIteration` from `next(reader)` on input with no rows, and
`UnboundLocalError` from the progress `print` on line 115 when
`shortened_url` is referenced before any assignment. -/
inductive PyError where
  | stopIteration : PyError
  | unboundLocal : String → PyError
deriving DecidableEq

/-- The cell value appended to a data row by the loop body of `process_csv`
(lines 107-113): the resolver result when the row is long enough, the
out-of-range error string otherwise. -/
def result_cell (resolver : Resolver) (ci : Nat) (row : List String) : String :=
  if h : ci < row.length then unshorten_url resolver (row.get ⟨ci, h⟩)
  else "Error: Column index out of range"

/-- A data row as written by `process_csv`: the original cells in order
with the result cell appended as the trailing cell. -/
def augment_row (resolver : Resolver) (ci : Nat) (row : List String) : List String :=
  row ++ [result_cell resolver ci row]

/-- The URL the loop body passes to `unshorten_url` for a row, if any:
`row[column_index]` when `len(row) > column_index`, nothing otherwise. -/
def row_call (ci : Nat) (row : List String) : Option String :=
  if h : ci < row.length then some (row.get ⟨ci, h⟩) else none

/-- Embedding of the data-row loop of `process_csv` (lines 107-115).
`vars` holds the current values of the Python locals `shortened_url` and
`unshortened_url` (`none` before their first assignment).  Returns the
rows written to the output writer, the URLs passed to `unshorten_url`
(the outbound network requests) in order, and the exception that escaped,
if any.  The loop body writes the augmented row (line 114) before the
progress `print` (line 115); that `print` raises `UnboundLocalError` when
it reads `shortened_url` while it is still unassigned, which aborts the
loop after the row was written but stops all later rows. -/
def process_rows (resolver : Resolver) (ci : Nat) :
    Option (String × String) → List (List String) →
    List (List String) × List String × Option PyError
  | _, [] => ([], [], none)
  | vars, row :: rest =>
    if h : ci < row.length then
      let su := row.get ⟨ci, h⟩
      let uu := unshorten_url resolver su
      let res := process_rows resolver ci (some (su, uu)) rest
      ((row ++ [uu]) :: res.1, su :: res.2.1, res.2.2)
    else
      match vars with
      | none =>
        ([row ++ ["Error: Column index out of range"]], [],
          some (PyError.unboundLocal "shortened_url"))
      | some p =>
        let res := process_rows resolver ci (some p) rest
        ((row ++ ["Error: Column index out of range"]) :: res.1, res.2.1, res.2.2)

/-- Embedding of `process_csv` (src/url_unshortener.py lines 87-117) over
parsed rows.  On input with no rows, `next(reader)` raises
`StopIteration` before anything is written.  Otherwise the header with
`"Unshortened URL"` appended is written first, then the data rows are
processed in order.  Returns the written rows, the resolver calls, and
the escaping exception, if any. -/
def process_csv (resolver : Resolver) (ci : Nat) (rows : List (List String)) :
    List (List String) × List String × Option PyError :=
  match rows with
  | [] => ([], [], some PyError.stopIteration)
  | header :: dataRows =>
    let res := process_rows resolver ci none dataRows
    ((header ++ ["Unshortened URL"]) :: res.1, res.2.1, res.2.2)

/-- The value `process_csv` returns to its caller (`output.getvalue()`,
line 117): the full written document when no exception escaped, the
exception otherwise. -/
def process_csv_result (resolver : Resolver) (ci : Nat)
    (rows : List (List String)) : Except PyError (List (List String)) :=
  match process_csv resolver ci rows with
  | (written, _, none) => Except.ok written
  | (_, _, some e) => Except.error e

/-- A resolver stub whose final effective URL is `https://example.com/final`
for every input. -/
def exResolverOk : Resolver := fun _ => Except.ok "https://example.com/final"

/-- A resolver stub whose redirect chain terminates back on `bit.ly`. -/
def exResolverLoop : Resolver := fun _ => Except.ok "https://bit.ly/abc"

/-- A resolver stub that fails with a connection error. -/
def exResolverErr : Resolver := fun _ => Except.error "connection refused"

/-- A resolver stub whose final effective URL carries a `www.` prefixed host. -/
def exResolverWww : Resolver := fun _ => Except.ok "http://www.bit.ly/a"

/-- A resolver stub whose final effective URL carries an explicit port. -/
def exResolverPort : Resolver := fun _ => Except.ok "http://bit.ly:80/a"

/-- A resolver stub whose final effective URL carries an upper-case host. -/
def exResolverUpper : Resolver := fun _ => Except.ok "http://BIT.LY/a"

/-- Concrete input document used to exercise `process_csv`: a header and
three data rows, the middle one shorter than column index 1. -/
def exRows : List (List String) :=
  [["name", "url"], ["r1", "u1"], ["r2"], ["r3", "u3"]]

/-- The document `process_csv` writes for `exRows` with column index 1
under `exResolverOk`. -/
def exRowsOut : List (List String) :=
  [["name", "url", "Unshortened URL"],
   ["r1", "u1", "https://example.com/final"],
   ["r2", "Error: Column index out of range"],
   ["r3", "u3", "https://example.com/final"]]

example : urlparse_netloc "https://example.com/final" = "example.com" := by decide
example : urlparse_netloc "http://bit.ly:80/x" = "bit.ly:80" := by decide
example : urlparse_netloc "http://www.bit.ly/x" = "www.bit.ly" := by decide
example : urlparse_netloc "http://BIT.LY/x" = "BIT.LY" := by decide
example : unshorten_url exResolverLoop "u" = "Error: Still on shortener domain" := by decide

/-- Once the Python locals `shortened_url` and `unshortened_url` are bound,
the loop can no longer raise: it writes every remaining row augmented with
its result cell, calls the resolver exactly on the in-range cells in row
order, and finishes without an exception. -/
theorem process_rows_some (resolver : Resolver) (ci : Nat) :
    ∀ (rest : List (List String)) (p : String × String),
      process_rows resolver ci (some p) rest =
        (rest.map (augment_row resolver ci), rest.filterMap (row_call ci), none) := by
  intro rest
  induction rest with
  | nil => intro p; rfl
  | cons row rest ih =>
    intro p
    by_cases h : ci < row.length
    · simp [process_rows, h, ih, augment_row, result_cell, row_call]
    · simp [process_rows, h, ih, augment_row, result_cell, row_call]

/-- When the loop starting with unbound locals finishes without an
exception, it behaves as the per-row augmentation map. -/
theorem process_rows_none_ok (resolver : Resolver) (ci : Nat)
    (rest : List (List String))
    (h : (process_rows resolver ci none rest).2.2 = none) :
    process_rows resolver ci none rest =
      (rest.map (augment_row resolver ci), rest.filterMap (row_call ci), none) := by
  cases rest with
  | nil => rfl
  | cons row rest =>
    by_cases hc : ci < row.length
    · simp [process_rows, hc, process_rows_some, augment_row, result_cell, row_call]
    · exfalso
      simp [process_rows, hc] at h

/-- Augmenting a row adds exactly one cell. -/
theorem augment_row_length (resolver : Resolver) (ci : Nat) (row : List String) :
    (augment_row resolver ci row).length = row.length + 1 := by
  simp [augment_row]

/-- Pointwise length of the mapped augmentation, via `getD`. -/
theorem getD_map_augment_length (resolver : Resolver) (ci : Nat) :
    ∀ (l : List (List String)) (i : Nat), i < l.length →
      ((l.map (augment_row resolver ci)).getD i []).length = (l.getD i []).length + 1 := by
  intro l
  induction l with
  | nil => intro i hi; simp at hi
  | cons row l ih =>
    intro i hi
    cases i with
    | zero => simpa using augment_row_length resolver ci row
    | succ i => simpa using ih i (by simpa using hi)

/-- C1: for every input CSV whose transformation completes, `process_csv`
preserves the row count and appends exactly one cell to every row: the
output has as many rows as the input, and for every row index `i` the
output row length equals the input row length plus 1 (the header row
included). -/
theorem c1_column_invariant (resolver : Resolver) (ci : Nat)
    (rows out : List (List String))
    (h : process_csv_result resolver ci rows = Except.ok out) :
    out.length = rows.length ∧
      ∀ i, i < rows.length →
        (out.getD i []).length = (rows.getD i []).length + 1 := by
  cases rows with
  | nil => simp [process_csv_result, process_csv] at h
  | cons hdr dataRows =>
    rcases he : (process_rows resolver ci none dataRows).2.2 with _ | e
    · have hp := process_rows_none_ok resolver ci dataRows he
      simp only [process_csv_result, process_csv, hp, Except.ok.injEq] at h
      subst h
      refine ⟨by simp, ?_⟩
      intro i hi
      cases i with
      | zero => simp
      | succ i =>
        simpa using getD_map_augment_length resolver ci dataRows i (by simpa using hi)
    · simp [process_csv_result, process_csv, he] at h

/-- C1 witness: a concrete run that completes, with the row count preserved
and every row one cell longer. -/
theorem c1_column_invariant_witness :
    process_csv_result exResolverOk 1 exRows = Except.ok exRowsOut ∧
      (exRowsOut.length = exRows.length ∧
        ∀ i, i < exRows.length →
          (exRowsOut.getD i []).length = (exRows.getD i []).length + 1) :=
  ⟨rfl, c1_column_invariant exResolverOk 1 exRows exRowsOut rfl⟩

/-- C2 (code bug): with column index 1 and a first data row shorter than
the index, the out-of-range failure is not recovered locally: the progress
`print` on line 115 reads `shortened_url` before any assignment, so
`process_csv` aborts with `UnboundLocalError` instead of returning the
document, contradicting the claim that per-row failures never interrupt
processing. -/
theorem c2_first_short_row_aborts :
    process_csv_result exResolverOk 1 [["h1", "h2"], ["x"]] =
      Except.error (PyError.unboundLocal "shortened_url") := rfl

/-- C3: whenever the HTTP resolution succeeds and the netloc of the final
effective URL is one of the six denylist hosts, `unshorten_url` returns
exactly the string "Error: Still on shortener domain". -/
theorem c3_shortener_loop (resolver : Resolver) (url finalUrl : String)
    (h1 : resolver url = Except.ok finalUrl)
    (h2 : urlparse_netloc finalUrl ∈ shortener_domains) :
    unshorten_url resolver url = "Error: Still on shortener domain" := by
  simp [unshorten_url, h1, h2]

/-- C3 witness: a stubbed resolver whose final URL host is `bit.ly` makes
`unshorten_url` return the loop-error string. -/
theorem c3_shortener_loop_witness :
    exResolverLoop "https://bit.ly/xyz" = Except.ok "https://bit.ly/abc" ∧
      urlparse_netloc "https://bit.ly/abc" ∈ shortener_domains ∧
      unshorten_url exResolverLoop "https://bit.ly/xyz" =
        "Error: Still on shortener domain" :=
  ⟨rfl, by decide,
    c3_shortener_loop exResolverLoop "https://bit.ly/xyz" "https://bit.ly/abc"
      rfl (by decide)⟩

/-- C4: every network-layer failure of the HTTP request (modelled as the
resolver failing with description `e`) is converted to the string result
"Error: " followed by that description; no exception escapes
`unshorten_url`, which is a total function of the resolver outcome. -/
theorem c4_network_error_captured (resolver : Resolver) (url e : String)
    (h : resolver url = Except.error e) :
    unshorten_url resolver url = "Error: " ++ e := by
  simp [unshorten_url, h]

/-- C4 witness: a connection-refused failure yields the prefixed error
string. -/
theorem c4_network_error_captured_witness :
    exResolverErr "http://badhost.invalid" = Except.error "connection refused" ∧
      unshorten_url exResolverErr "http://badhost.invalid" =
        "Error: " ++ "connection refused" :=
  ⟨rfl, c4_network_error_captured exResolverErr "http://badhost.invalid"
    "connection refused" rfl⟩

/-- C5: for every input with a header row, the first row written by
`process_csv` is the input header with the literal column name
"Unshortened URL" appended, regardless of the header content, the column
index and the resolver. -/
theorem c5_header_augmentation (resolver : Resolver) (ci : Nat)
    (hdr : List String) (dataRows : List (List String)) :
    (process_csv resolver ci (hdr :: dataRows)).1.head? =
      some (hdr ++ ["Unshortened URL"]) := rfl

/-- C6 (code bug): with column index 1 and the two short data rows ["a"]
and ["b"], the run aborts with `UnboundLocalError` at the first short row;
the row ["a"] is written with the out-of-range cell, but the row ["b"] is
never processed and never receives the cell, contradicting the claim for
every short row. No resolver call is made for either row (the call trace
is empty). -/
theorem c6_short_row_never_reached :
    process_csv exResolverOk 1 [["h1", "h2"], ["a"], ["b"]] =
      ([["h1", "h2", "Unshortened URL"],
        ["a", "Error: Column index out of range"]],
       [], some (PyError.unboundLocal "shortened_url")) := rfl

/-- C7: whenever the HTTP resolution succeeds and the netloc of the final
effective URL is not in the denylist, `unshorten_url` returns exactly the
final URL string. -/
theorem c7_resolved_final_url (resolver : Resolver) (url finalUrl : String)
    (h1 : resolver url = Except.ok finalUrl)
    (h2 : urlparse_netloc finalUrl ∉ shortener_domains) :
    unshorten_url resolver url = finalUrl := by
  simp [unshorten_url, h1, h2]

/-- C7 witness: a stub that redirects to `https://example.com/final`
yields exactly that string. -/
theorem c7_resolved_final_url_witness :
    exResolverOk "https://bit.ly/3abc" = Except.ok "https://example.com/final" ∧
      urlparse_netloc "https://example.com/final" ∉ shortener_domains ∧
      unshorten_url exResolverOk "https://bit.ly/3abc" = "https://example.com/final" :=
  ⟨rfl, by decide,
    c7_resolved_final_url exResolverOk "https://bit.ly/3abc"
      "https://example.com/final" rfl (by decide)⟩

/-- C8: for every run of `process_csv` that completes, the data rows of the
output are exactly the input data rows in the same order, each with all its
original cells in their original order and the result cell appended as the
trailing cell; and the resolver calls are issued strictly sequentially, one
per in-range row, in row order. -/
theorem c8_order_preserved (resolver : Resolver) (ci : Nat)
    (rows out : List (List String))
    (h : process_csv_result resolver ci rows = Except.ok out) :
    out.tail = rows.tail.map (fun row => row ++ [result_cell resolver ci row]) ∧
      (process_csv resolver ci rows).2.1 = rows.tail.filterMap (row_call ci) := by
  cases rows with
  | nil => simp [process_csv_result, process_csv] at h
  | cons hdr dataRows =>
    rcases he : (process_rows resolver ci none dataRows).2.2 with _ | e
    · have hp := process_rows_none_ok resolver ci dataRows he
      simp only [process_csv_result, process_csv, hp, Except.ok.injEq] at h
      subst h
      simp [process_csv, hp, augment_row]
    · simp [process_csv_result, process_csv, he] at h

/-- C8 witness: a concrete completed run whose output data rows are the
augmented input data rows in order, with the sequential call trace. -/
theorem c8_order_preserved_witness :
    exRowsOut.tail =
        exRows.tail.map (fun row => row ++ [result_cell exResolverOk 1 row]) ∧
      (process_csv exResolverOk 1 exRows).2.1 = exRows.tail.filterMap (row_call 1) :=
  c8_order_preserved exResolverOk 1 exRows exRowsOut rfl

/-- C9: on empty input (no header row), `next(reader)` raises
`StopIteration` before anything is written: `process_csv` surfaces a fatal
whole-run failure to the caller and writes no output at all. -/
theorem c9_empty_input_fatal (resolver : Resolver) (ci : Nat) :
    process_csv_result resolver ci [] = Except.error PyError.stopIteration ∧
      (process_csv resolver ci []).1 = [] :=
  ⟨rfl, rfl⟩

/-- C10: the denylist check is an exact string equality on the parsed
netloc: whenever the resolution succeeds and the final netloc differs from
each of the six denylist strings, `unshorten_url` returns the final URL as
resolved. -/
theorem c10_exact_netloc_match (resolver : Resolver) (url finalUrl : String)
    (h1 : resolver url = Except.ok finalUrl)
    (h2 : ∀ d ∈ shortener_domains, urlparse_netloc finalUrl ≠ d) :
    unshorten_url resolver url = finalUrl := by
  have hmem : urlparse_netloc finalUrl ∉ shortener_domains := fun hm => h2 _ hm rfl
  simp [unshorten_url, h1, hmem]

/-- C10 witness: a `www.` prefixed host, a host with an explicit port and
an upper-case host all escape the denylist check and are returned as
resolved. -/
theorem c10_exact_netloc_match_witness :
    unshorten_url exResolverWww "u" = "http://www.bit.ly/a" ∧
      unshorten_url exResolverPort "u" = "http://bit.ly:80/a" ∧
      unshorten_url exResolverUpper "u" = "http://BIT.LY/a" :=
  ⟨c10_exact_netloc_match exResolverWww "u" "http://www.bit.ly/a" rfl (by decide),
    c10_exact_netloc_match exResolverPort "u" "http://bit.ly:80/a" rfl (by decide),
    c10_exact_netloc_match exResolverUpper "u" "http://BIT.LY/a" rfl (by decide)⟩
